import Mathlib

/- Shallow embedding of src/main/main.c (OPTIGA Secure Data Logging,
   Part 2 - Encrypted Data Logging).  Machine integers are modelled as
   Nat or Int with explicit reduction modulo 2^w where the C code can
   wrap; byte buffers are List Nat; the secure element is an oracle
   recording how the device answers each submitted operation, and every
   embedded function returns the trace of operations it submitted. -/

/-- Values of the shared volatile `s_optiga_status`
(`optiga_lib_status_t`): `busy` is OPTIGA_LIB_BUSY, `success` is
OPTIGA_LIB_SUCCESS, `error` stands for every other completion code the
callback can deliver.  `idle` is the Idle state of the spec's
CryptoOperation data model; the C code defines no such value, and the
constructor exists only so that claims phrased in terms of Idle can be
stated. -/
inductive OptigaStatus where
  | busy
  | success
  | error
  | idle
  deriving DecidableEq, Repr

/-- One operation submitted to the secure element through the single
submit/await pair.  `symmetricEncrypt` carries the 64-byte staging
buffer the C code hands to `optiga_crypt_symmetric_encrypt`. -/
inductive OpKind where
  | rng
  | readMetadata
  | writeMetadata
  | generateKey
  | symmetricEncrypt (ptBuf : List Nat)
  deriving DecidableEq, Repr

/-- Answers of the OPTIGA secure element for one run: for each
operation kind, whether the driver accepts the submission (the
`optiga_*` start call returns OPTIGA_LIB_SUCCESS), the completion
status the callback stores into `s_optiga_status`, and the bytes or
lengths the device writes into the caller's buffers. -/
structure Oracle where
  rngSubmitOk : Bool
  rngDone : OptigaStatus
  rngBytes : List Nat
  readSubmitOk : Bool
  readDone : OptigaStatus
  metadataLen : Nat
  writeSubmitOk : Bool
  writeDone : OptigaStatus
  genSubmitOk : Bool
  genDone : OptigaStatus
  encSubmitOk : Bool
  encDone : OptigaStatus
  encBytes : List Nat
  encLen : Nat
  deriving Repr

def AES_IV_BYTES : Nat := 16

def PLAINTEXT_MAX : Nat := 64

/-- `optiga_wait` (main.c:106): busy-polls the shared status until it
leaves OPTIGA_LIB_BUSY, then returns whether it became
OPTIGA_LIB_SUCCESS.  `obs` is the sequence of values read from the
volatile at successive polls; the callback mutates the shared status
out-of-band between polls.  The result pairs the returned Bool with the
value the shared status holds after the wait returns (the C function
performs no write to it); `none` models the loop never terminating
because no observation leaves busy. -/
def optiga_wait : List OptigaStatus → Option (Bool × OptigaStatus)
  | [] => none
  | s :: rest =>
    if s = OptigaStatus.busy then optiga_wait rest
    else some (decide (s = OptigaStatus.success), s)

/-- `optiga_rng_fill` (main.c:114): sets the shared status to busy,
calls `optiga_crypt_random` (the submission, recorded in the trace even
when the driver rejects it), then waits for the callback status. -/
def optiga_rng_fill (o : Oracle) : Bool × List OpKind :=
  if o.rngSubmitOk = false then (false, [OpKind.rng])
  else (decide (o.rngDone = OptigaStatus.success), [OpKind.rng])

/-- `optiga_key_ready` (main.c:140): reads the metadata of key slot
0xE200; true iff the read is accepted by the driver, completes with
success, and reports a non-empty metadata blob.  `o.metadataLen` is the
length the device stores into `metadata_len` on completion. -/
def optiga_key_ready (o : Oracle) : Bool × List OpKind :=
  if o.readSubmitOk = false then (false, [OpKind.readMetadata])
  else if ¬ (o.readDone = OptigaStatus.success) then (false, [OpKind.readMetadata])
  else if o.metadataLen = 0 then (false, [OpKind.readMetadata])
  else (true, [OpKind.readMetadata])

/-- `optiga_write_e200_metadata` (main.c:166): writes the fixed
capability descriptor to slot 0xE200. -/
def optiga_write_e200_metadata (o : Oracle) : Bool × List OpKind :=
  if o.writeSubmitOk = false then (false, [OpKind.writeMetadata])
  else (decide (o.writeDone = OptigaStatus.success), [OpKind.writeMetadata])

/-- The tail of `optiga_generate_key_if_enabled` (main.c:210):
generates the AES-128 key inside slot 0xE200. -/
def optiga_generate_aes_key (o : Oracle) : Bool × List OpKind :=
  if o.genSubmitOk = false then (false, [OpKind.generateKey])
  else (decide (o.genDone = OptigaStatus.success), [OpKind.generateKey])

/-- `optiga_generate_key_if_enabled` (main.c:191), the provisioning
step.  `genOnBoot` is the GENERATE_KEY_ON_BOOT compile-time flag.
Returns the Bool result the C function returns, together with the
trace of secure-element operations submitted. -/
def optiga_generate_key_if_enabled (genOnBoot : Bool) (o : Oracle) :
    Bool × List OpKind :=
  if genOnBoot then
    match optiga_write_e200_metadata o with
    | (false, t) => (false, t)
    | (true, t) =>
      match optiga_generate_aes_key o with
      | (r, t2) => (r, t ++ t2)
  else
    match optiga_key_ready o with
    | (true, t) => (true, t)
    | (false, t) =>
      match optiga_write_e200_metadata o with
      | (false, t2) => (false, t ++ t2)
      | (true, t2) =>
        match optiga_generate_aes_key o with
        | (r, t3) => (r, t ++ t2 ++ t3)

/-- The 64-byte plaintext staging buffer of `encrypt_record`
(main.c:276): `memset(pt_buf, 0, sizeof(pt_buf))` followed by
`memcpy(pt_buf, plaintext, pt_len)`.  The model keeps every byte the
memcpy writes, so the result has exactly 64 bytes when `pt_len ≤ 64`
and more than 64 bytes when the copy overruns the 64-byte C array (an
out-of-bounds write in the C code, which has no guard against it). -/
def pt_buf_model (plaintext : List Nat) (pt_len : Nat) : List Nat :=
  plaintext.take pt_len ++ List.replicate (PLAINTEXT_MAX - pt_len) 0

/-- `encrypt_record` (main.c:260).  Returns the 80 bytes written into
`record` on success (`some`), or `none` where the C function returns
false, paired with the trace of secure-element operations submitted.
The device checks nothing about `pt_len`; the only input validation is
`record_len < AES_IV_BYTES + PLAINTEXT_MAX`. -/
def encrypt_record (o : Oracle) (plaintext : List Nat) (pt_len : Nat)
    (record_len : Nat) : Option (List Nat) × List OpKind :=
  if record_len < AES_IV_BYTES + PLAINTEXT_MAX then (none, [])
  else
    match optiga_rng_fill o with
    | (false, t) => (none, t)
    | (true, t) =>
      let pt_buf := pt_buf_model plaintext pt_len
      if o.encSubmitOk = false then (none, t ++ [OpKind.symmetricEncrypt pt_buf])
      else if ¬ (o.encDone = OptigaStatus.success) then
        (none, t ++ [OpKind.symmetricEncrypt pt_buf])
      else if ¬ (o.encLen = PLAINTEXT_MAX) then
        (none, t ++ [OpKind.symmetricEncrypt pt_buf])
      else (some (o.rngBytes ++ o.encBytes), t ++ [OpKind.symmetricEncrypt pt_buf])

/-- Number of decimal digits printf renders for a natural number,
fuel-indexed so the recursion is structural; any fuel of at least the
number of division steps gives the true digit count, and the base case
is never reached when `fuel ≥ n`. -/
def decLenAux : Nat → Nat → Nat
  | 0, _ => 1
  | fuel + 1, n => if n < 10 then 1 else decLenAux fuel (n / 10) + 1

/-- ASCII codes of the decimal digits printf renders for a natural
number (`%lu` rendering), with the same fuel pattern as `decLenAux`. -/
def decCharsAux : Nat → Nat → List Nat
  | 0, n => [48 + n % 10]
  | fuel + 1, n =>
    if n < 10 then [48 + n] else decCharsAux fuel (n / 10) ++ [48 + n % 10]

def decChars (n : Nat) : List Nat := decCharsAux n n

/-- ASCII rendering of a signed integer (`%lld`): an optional minus
sign (code 45) followed by the decimal digits of the magnitude. -/
def intChars (i : Int) : List Nat :=
  if i < 0 then 45 :: decChars i.natAbs else decChars i.natAbs

/-- The bytes snprintf (main.c:319) produces for the log message: the
ASCII codes of the literal pieces of the format string around the
sequence number (already reduced modulo 2^32, printed with %lu) and the
uptime in milliseconds (printed with %lld).  The first literal list is
the codes of the eight characters before the sequence number, the
second the thirteen characters between the two numbers, and 125 is the
closing brace. -/
def msgBytes (seq : Nat) (ms : Int) : List Nat :=
  [123, 34, 115, 101, 113, 34, 58] ++ decChars seq
    ++ [44, 34, 117, 112, 116, 105, 109, 101, 95, 109, 115, 34, 58]
    ++ intChars ms ++ [125]

/-- Host-visible state of the logging engine: `s_log_seq` (a uint32,
kept below 2^32) and the bytes of the backing log file. -/
structure LogState where
  seq : Nat
  file : List Nat
  deriving Repr

/-- Filesystem behavior for one append: whether
`fopen(LOG_FILE_PATH, "ab")` succeeds, and the count fwrite returns
(the number of bytes actually written, at most the 80 requested). -/
structure FsEnv where
  openOk : Bool
  writeCount : Nat
  deriving Repr

/-- The four exit paths of `append_encrypted_record`, identified by the
message the C function logs on each. -/
inductive AppendOutcome where
  | snprintfFailed
  | encryptFailed
  | openFailed
  | ok
  deriving DecidableEq, Repr

/-- `append_encrypted_record` (main.c:314).  `snErr` models snprintf
returning a negative value; `uptimeUs` is the int64 microsecond count
`esp_timer_get_time()` returns, divided by 1000 with C truncating
division.  The sequence counter is incremented before anything else.
The message actually fits its 64-byte buffer for every reachable input
(proved below), so the buffer content equals `msgBytes` and the
snprintf return value equals its length.  The fwrite return count is
ignored by the C code: the file gains whatever prefix of the record was
actually written and the function still logs success. -/
def append_encrypted_record (o : Oracle) (fs : FsEnv) (snErr : Bool)
    (uptimeUs : Int) (st : LogState) : LogState × AppendOutcome × List OpKind :=
  let seq' := (st.seq + 1) % 2 ^ 32
  if snErr then ({ st with seq := seq' }, AppendOutcome.snprintfFailed, [])
  else
    let msg := msgBytes seq' (uptimeUs.tdiv 1000)
    match encrypt_record o msg msg.length (AES_IV_BYTES + PLAINTEXT_MAX) with
    | (none, t) => ({ st with seq := seq' }, AppendOutcome.encryptFailed, t)
    | (some record, t) =>
      if fs.openOk = false then ({ st with seq := seq' }, AppendOutcome.openFailed, t)
      else ({ seq := seq', file := st.file ++ record.take fs.writeCount },
            AppendOutcome.ok, t)

/-- Result of `print_log_file_hex`: either the file is absent (logged
as no data) or its content is rendered as a sequence of hex chunks. -/
inductive DumpResult where
  | noFile
  | chunks (cs : List (List Nat))
  deriving DecidableEq, Repr

/-- The fread loop of `print_log_file_hex` (main.c:254): reads the file
32 bytes at a time and renders each chunk it read.  Fuel is the number
of remaining bytes, which bounds the number of iterations. -/
def readChunksAux : Nat → List Nat → List (List Nat)
  | 0, _ => []
  | _ + 1, [] => []
  | fuel + 1, b :: bs => ((b :: bs).take 32) :: readChunksAux fuel ((b :: bs).drop 32)

/-- `print_log_file_hex` (main.c:243): when the file exists, renders
its entire content as hex in chunks of at most 32 bytes; a missing
file is reported as no data.  The function performs no length or
alignment check of any kind. -/
def print_log_file_hex (fileExists : Bool) (content : List Nat) : DumpResult :=
  if fileExists = false then DumpResult.noFile
  else DumpResult.chunks (readChunksAux content.length content)

/-- A fully responsive secure element: every submission is accepted,
every operation completes with success, the TRNG fills the 16 requested
IV bytes, the metadata read reports a non-empty blob, and the
encryption writes the 64 ciphertext bytes it reports. -/
def oracleOk : Oracle where
  rngSubmitOk := true
  rngDone := OptigaStatus.success
  rngBytes := List.replicate 16 1
  readSubmitOk := true
  readDone := OptigaStatus.success
  metadataLen := 8
  writeSubmitOk := true
  writeDone := OptigaStatus.success
  genSubmitOk := true
  genDone := OptigaStatus.success
  encSubmitOk := true
  encDone := OptigaStatus.success
  encBytes := List.replicate 64 2
  encLen := 64

/-- Like `oracleOk` but the metadata read reports an empty blob and the
metadata write completes with an error status. -/
def oracleEmptyMetaWriteFails : Oracle :=
  { oracleOk with metadataLen := 0, writeDone := OptigaStatus.error }

/-- Like `oracleOk` but the RNG operation completes with an error. -/
def oracleRngFails : Oracle := { oracleOk with rngDone := OptigaStatus.error }

/-- Filesystem that opens the log and writes the full record. -/
def fsOk : FsEnv where
  openOk := true
  writeCount := 80

/-- Filesystem that opens the log but persists only 40 of the 80 bytes
(a short write, e.g. the volume filling up). -/
def fsShort : FsEnv where
  openOk := true
  writeCount := 40

/-- The read path of `optiga_key_ready` succeeds: the driver accepts
the metadata read, it completes with success, and the reported
metadata blob is non-empty. -/
def readReportsKey (o : Oracle) : Bool :=
  o.readSubmitOk && decide (o.readDone = OptigaStatus.success)
    && decide (o.metadataLen ≠ 0)

/-- The metadata write is accepted by the driver and completes with
success. -/
def writeAccepted (o : Oracle) : Bool :=
  o.writeSubmitOk && decide (o.writeDone = OptigaStatus.success)

/-- The key generation is accepted by the driver and completes with
success. -/
def genAccepted (o : Oracle) : Bool :=
  o.genSubmitOk && decide (o.genDone = OptigaStatus.success)

theorem optiga_key_ready_eq (o : Oracle) :
    optiga_key_ready o = (readReportsKey o, [OpKind.readMetadata]) := by
  unfold optiga_key_ready readReportsKey
  by_cases h1 : o.readSubmitOk = false <;>
    by_cases h2 : o.readDone = OptigaStatus.success <;>
      by_cases h3 : o.metadataLen = 0 <;>
        simp [h1, h2, h3]

theorem optiga_write_e200_metadata_eq (o : Oracle) :
    optiga_write_e200_metadata o = (writeAccepted o, [OpKind.writeMetadata]) := by
  unfold optiga_write_e200_metadata writeAccepted
  by_cases h1 : o.writeSubmitOk = false <;> simp [h1]

theorem optiga_generate_aes_key_eq (o : Oracle) :
    optiga_generate_aes_key o = (genAccepted o, [OpKind.generateKey]) := by
  unfold optiga_generate_aes_key genAccepted
  by_cases h1 : o.genSubmitOk = false <;> simp [h1]

theorem decLenAux_le (fuel : Nat) :
    ∀ n d : Nat, 1 ≤ d → n < 10 ^ d → decLenAux fuel n ≤ d := by
  induction fuel with
  | zero =>
    intro n d hd _
    simpa [decLenAux] using hd
  | succ fuel ih =>
    intro n d hd hn
    by_cases h10 : n < 10
    · simp [decLenAux, h10]
      exact hd
    · have hd2 : 2 ≤ d := by
        by_contra hcon
        push_neg at hcon
        have hd1 : d = 1 := by omega
        rw [hd1] at hn
        simp at hn
        omega
      have hpow : 10 ^ (d - 1) * 10 = 10 ^ d := by
        rw [← pow_succ]
        congr 1
        omega
      have hdiv : n / 10 < 10 ^ (d - 1) :=
        (Nat.div_lt_iff_lt_mul (by norm_num)).mpr (by omega)
      have hrec := ih (n / 10) (d - 1) (by omega) hdiv
      simp [decLenAux, h10]
      omega

theorem decCharsAux_length (fuel : Nat) :
    ∀ n : Nat, (decCharsAux fuel n).length = decLenAux fuel n := by
  induction fuel with
  | zero =>
    intro n
    simp [decCharsAux, decLenAux]
  | succ fuel ih =>
    intro n
    by_cases h10 : n < 10
    · simp [decCharsAux, decLenAux, h10]
    · simp [decCharsAux, decLenAux, h10, ih]

theorem readChunksAux_flatten (fuel : Nat) :
    ∀ bs : List Nat, bs.length ≤ fuel → (readChunksAux fuel bs).flatten = bs := by
  induction fuel with
  | zero =>
    intro bs h
    have hnil : bs = [] := List.eq_nil_of_length_eq_zero (Nat.le_zero.mp h)
    subst hnil
    simp [readChunksAux]
  | succ fuel ih =>
    intro bs h
    cases bs with
    | nil => simp [readChunksAux]
    | cons b rest =>
      simp only [List.length_cons] at h
      have hlen : ((b :: rest).drop 32).length ≤ fuel := by
        simp only [List.length_drop, List.length_cons]
        omega
      calc (readChunksAux (fuel + 1) (b :: rest)).flatten
          = (b :: rest).take 32 ++ (readChunksAux fuel ((b :: rest).drop 32)).flatten := by
            simp [readChunksAux]
        _ = (b :: rest).take 32 ++ (b :: rest).drop 32 := by rw [ih _ hlen]
        _ = b :: rest := List.take_append_drop 32 (b :: rest)

/-- C10: an output buffer smaller than 80 bytes makes `encrypt_record`
return false immediately: the result is none and the operation trace is
empty, so no RNG and no encryption operation was submitted to the
secure element. -/
theorem encrypt_record_rejects_small_buffer (o : Oracle) (p : List Nat)
    (n rl : Nat) (h : rl < AES_IV_BYTES + PLAINTEXT_MAX) :
    encrypt_record o p n rl = (none, []) := by
  simp [encrypt_record, h]

/-- Witness for C10 at a concrete 79-byte output buffer. -/
theorem encrypt_record_rejects_small_buffer_witness :
    encrypt_record oracleOk [1, 2, 3] 3 79 = (none, []) :=
  encrypt_record_rejects_small_buffer oracleOk [1, 2, 3] 3 79 (by decide)

/-- C1: the plaintext-length guard the claim describes does not exist
in the code.  Called with a 65-byte plaintext (one byte over
PLAINTEXT_MAX) and a valid 80-byte output buffer against a responsive
secure element, `encrypt_record` does not reject the input: it submits
the RNG operation, copies all 65 plaintext bytes into the 64-byte
staging buffer (one byte past its end in the C code, an out-of-bounds
write), submits the encryption over that buffer, and returns a
record. -/
theorem encrypt_record_misses_length_guard :
    (encrypt_record oracleOk (List.replicate 65 7) 65 80).2
        = [OpKind.rng, OpKind.symmetricEncrypt (List.replicate 65 7)]
      ∧ (pt_buf_model (List.replicate 65 7) 65).length = 65
      ∧ ((encrypt_record oracleOk (List.replicate 65 7) 65 80).1).isSome = true := by
  decide

/-- C2: for every plaintext of at most 64 bytes (passed with its own
length, as at the call site), `encrypt_record` either returns none or
returns a record of exactly 80 bytes whose bytes [0:16) are the IV the
TRNG freshly produced and whose bytes [16:80) are the 64 ciphertext
bytes the secure element returned.  The two hypotheses besides the
length bound say the device behaved as specified on success: it filled
the 16 requested IV bytes, and it wrote as many ciphertext bytes as the
length it reported back. -/
theorem encrypt_record_fixed_size (o : Oracle) (p : List Nat) (rl : Nat)
    (_hp : p.length ≤ PLAINTEXT_MAX)
    (hiv : o.rngBytes.length = AES_IV_BYTES)
    (hct : o.encBytes.length = o.encLen) :
    (encrypt_record o p p.length rl).1 = none ∨
      ∃ r, (encrypt_record o p p.length rl).1 = some r ∧ r.length = 80 ∧
        r.take 16 = o.rngBytes ∧ r.drop 16 = o.encBytes := by
  by_cases h1 : rl < AES_IV_BYTES + PLAINTEXT_MAX
  · left
    simp [encrypt_record, h1]
  · by_cases h2 : o.rngSubmitOk = false
    · left
      simp [encrypt_record, optiga_rng_fill, h1, h2]
    · by_cases h3 : o.rngDone = OptigaStatus.success
      · by_cases h4 : o.encSubmitOk = false
        · left
          simp [encrypt_record, optiga_rng_fill, h1, h2, h3, h4]
        · by_cases h5 : o.encDone = OptigaStatus.success
          · by_cases h6 : o.encLen = PLAINTEXT_MAX
            · right
              refine ⟨o.rngBytes ++ o.encBytes, ?_, ?_, ?_, ?_⟩
              · simp [encrypt_record, optiga_rng_fill, h1, h2, h3, h4, h5, h6]
              · have hct64 : o.encBytes.length = 64 := by
                  rw [hct, h6]
                  rfl
                have hiv16 : o.rngBytes.length = 16 := hiv
                simp [List.length_append, hiv16, hct64]
              · have hiv16 : o.rngBytes.length = 16 := hiv
                rw [← hiv16]
                exact List.take_left o.rngBytes o.encBytes
              · have hiv16 : o.rngBytes.length = 16 := hiv
                rw [← hiv16]
                exact List.drop_left o.rngBytes o.encBytes
            · left
              simp [encrypt_record, optiga_rng_fill, h1, h2, h3, h4, h5, h6]
          · left
            simp [encrypt_record, optiga_rng_fill, h1, h2, h3, h4, h5]
      · left
        simp [encrypt_record, optiga_rng_fill, h1, h2, h3]

/-- Witness for C2 at a concrete 10-byte plaintext against the
responsive secure element. -/
theorem encrypt_record_fixed_size_witness :
    (encrypt_record oracleOk (List.replicate 10 3) 10 80).1 = none ∨
      ∃ r, (encrypt_record oracleOk (List.replicate 10 3) 10 80).1 = some r ∧
        r.length = 80 ∧ r.take 16 = oracleOk.rngBytes ∧
        r.drop 16 = oracleOk.encBytes :=
  encrypt_record_fixed_size oracleOk (List.replicate 10 3) 80 (by decide)
    (by decide) (by decide)

/-- C4 counterexample: an existing log file of 81 bytes (not a
multiple of 80) is rendered in full as hex chunks of 32, 32 and 17
bytes; nothing in the dump path flags the misalignment — the C
function computes no corruption condition at all, so the misaligned
trailing bytes are rendered silently. -/
theorem dump_misaligned_not_flagged :
    (81 : Nat) % 80 ≠ 0
      ∧ print_log_file_hex true (List.replicate 81 7)
          = DumpResult.chunks
              [List.replicate 32 7, List.replicate 32 7, List.replicate 17 7] := by
  decide

/-- C4 amended: the dump path performs no length or alignment check:
whenever the backing file exists, `print_log_file_hex` renders exactly
the file's raw bytes — the concatenation of the rendered chunks is the
whole content, whatever its length — and a missing file is reported as
no data rather than as an error. -/
theorem dump_renders_raw_bytes (content : List Nat) :
    print_log_file_hex true content
        = DumpResult.chunks (readChunksAux content.length content)
      ∧ (readChunksAux content.length content).flatten = content
      ∧ print_log_file_hex false content = DumpResult.noFile := by
  refine ⟨?_, readChunksAux_flatten content.length content (Nat.le_refl _), ?_⟩
  · simp [print_log_file_hex]
  · simp [print_log_file_hex]

/-- C7 counterexample: a wait that observes one busy poll and then the
Success completion returns true and leaves the shared status holding
Success — the waiter does not reset it to the spec's Idle state. -/
theorem optiga_wait_not_reset_to_idle :
    optiga_wait [OptigaStatus.busy, OptigaStatus.success]
        = some (true, OptigaStatus.success)
      ∧ OptigaStatus.success ≠ OptigaStatus.idle := by
  decide

/-- C7 amended: whenever `optiga_wait` returns, the shared status
still holds the first non-busy value the poll loop observed (the
completion the callback delivered): the waiter writes nothing, so the
status is not reset to Idle; the returned Bool is true exactly when
that completion is Success.  The status leaves this value only at the
next submission, which sets it back to Busy. -/
theorem optiga_wait_leaves_completion (obs : List OptigaStatus) (r : Bool)
    (s : OptigaStatus) (h : optiga_wait obs = some (r, s)) :
    s ≠ OptigaStatus.busy ∧ r = decide (s = OptigaStatus.success) ∧ s ∈ obs := by
  induction obs with
  | nil => simp [optiga_wait] at h
  | cons a rest ih =>
    by_cases ha : a = OptigaStatus.busy
    · rw [optiga_wait, if_pos ha] at h
      obtain ⟨h1, h2, h3⟩ := ih h
      exact ⟨h1, h2, List.mem_cons_of_mem a h3⟩
    · rw [optiga_wait, if_neg ha] at h
      simp only [Option.some.injEq, Prod.mk.injEq] at h
      obtain ⟨hr, hs⟩ := h
      subst hs
      exact ⟨ha, hr.symm, List.mem_cons_self a rest⟩

/-- Witness for the amended C7 at a concrete observation sequence
ending in an error completion. -/
theorem optiga_wait_leaves_completion_witness :
    OptigaStatus.error ≠ OptigaStatus.busy
      ∧ false = decide (OptigaStatus.error = OptigaStatus.success)
      ∧ OptigaStatus.error ∈ [OptigaStatus.busy, OptigaStatus.error] :=
  optiga_wait_leaves_completion [OptigaStatus.busy, OptigaStatus.error] false
    OptigaStatus.error (by decide)

/-- C3 counterexample: under the non-destructive policy, with a
metadata read that completes successfully but reports an empty blob,
and a metadata write that completes with an error, the provisioning
step invokes write-metadata exactly once but never invokes
generate-key — against the claimed "exactly one write-metadata and
exactly one generate-key". -/
theorem provisioning_write_failure_skips_generate :
    oracleEmptyMetaWriteFails.metadataLen = 0
      ∧ (optiga_generate_key_if_enabled false oracleEmptyMetaWriteFails).2.count
          OpKind.writeMetadata = 1
      ∧ (optiga_generate_key_if_enabled false oracleEmptyMetaWriteFails).2.count
          OpKind.generateKey = 0 := by
  decide

/-- C3 amended: under the non-destructive policy
(GENERATE_KEY_ON_BOOT = 0), if the metadata read succeeds and reports a
non-empty blob, provisioning performs only that read and reports
success — no write-metadata and no generate-key.  Otherwise it invokes
write-metadata exactly once, and invokes generate-key exactly once if
that write succeeds and not at all if the write fails. -/
theorem provisioning_policy (o : Oracle) :
    (readReportsKey o = true →
      optiga_generate_key_if_enabled false o = (true, [OpKind.readMetadata]))
    ∧ (readReportsKey o = false →
      (optiga_generate_key_if_enabled false o).2.count OpKind.writeMetadata = 1
        ∧ (optiga_generate_key_if_enabled false o).2.count OpKind.generateKey
            = (if writeAccepted o = true then 1 else 0)) := by
  constructor
  · intro h
    simp [optiga_generate_key_if_enabled, optiga_key_ready_eq, h]
  · intro h
    by_cases hw : writeAccepted o = true
    · simp [optiga_generate_key_if_enabled, optiga_key_ready_eq,
        optiga_write_e200_metadata_eq, optiga_generate_aes_key_eq, h, hw,
        List.count_cons, List.count_append]
    · simp only [Bool.not_eq_true] at hw
      simp [optiga_generate_key_if_enabled, optiga_key_ready_eq,
        optiga_write_e200_metadata_eq, optiga_generate_aes_key_eq, h, hw,
        List.count_cons, List.count_append]

/-- Witness for the amended C3: the responsive secure element reports
non-empty metadata, so provisioning performs only the read. -/
theorem provisioning_policy_witness :
    optiga_generate_key_if_enabled false oracleOk = (true, [OpKind.readMetadata]) :=
  (provisioning_policy oracleOk).1 (by decide)

/-- C5 counterexample: with a responsive secure element and a
filesystem that opens the log but persists only 40 of the 80 record
bytes, `append_encrypted_record` still takes the success path (the
outcome that logs the encrypted message) and the file has grown by
only 40 bytes: the short write is neither detected nor reported,
because the C code ignores the fwrite return value. -/
theorem append_short_write_unreported :
    (append_encrypted_record oracleOk fsShort false 0 { seq := 0, file := [] }).2.1
        = AppendOutcome.ok
      ∧ (append_encrypted_record oracleOk fsShort false 0
          { seq := 0, file := [] }).1.file.length = 40 := by
  decide

/-- C5 amended: for an append whose encoding succeeds, either the open
fails and the openFailed outcome is reported with the file unchanged,
or the file opens, the outcome is the success path regardless of the
fwrite count, and the file gains exactly the bytes fwrite actually
wrote — the whole 80-byte record only when the write is not short.  A
short write is not detected or reported. -/
theorem append_store_behavior (o : Oracle) (fs : FsEnv) (us : Int)
    (st : LogState) (r : List Nat) (t : List OpKind)
    (henc : encrypt_record o (msgBytes ((st.seq + 1) % 2 ^ 32) (us.tdiv 1000))
        (msgBytes ((st.seq + 1) % 2 ^ 32) (us.tdiv 1000)).length
        (AES_IV_BYTES + PLAINTEXT_MAX) = (some r, t)) :
    (fs.openOk = false →
      append_encrypted_record o fs false us st
        = ({ st with seq := (st.seq + 1) % 2 ^ 32 }, AppendOutcome.openFailed, t))
    ∧ (fs.openOk = true →
      append_encrypted_record o fs false us st
        = ({ seq := (st.seq + 1) % 2 ^ 32,
             file := st.file ++ r.take fs.writeCount }, AppendOutcome.ok, t)) := by
  constructor <;> intro h
  · simp only [append_encrypted_record, henc]
    simp [h]
  · simp only [append_encrypted_record, henc]
    simp [h]

/-- Witness for the amended C5: a full 80-byte write appends the whole
record. -/
theorem append_store_behavior_witness :
    append_encrypted_record oracleOk fsOk false 0 { seq := 0, file := [] }
      = ({ seq := (0 + 1) % 2 ^ 32,
           file := [] ++ (List.replicate 16 1 ++ List.replicate 64 2).take fsOk.writeCount },
          AppendOutcome.ok,
          [OpKind.rng, OpKind.symmetricEncrypt
            (pt_buf_model (msgBytes 1 0) (msgBytes 1 0).length)]) :=
  (append_store_behavior oracleOk fsOk 0 { seq := 0, file := [] }
      (List.replicate 16 1 ++ List.replicate 64 2)
      [OpKind.rng, OpKind.symmetricEncrypt
        (pt_buf_model (msgBytes 1 0) (msgBytes 1 0).length)]
      (by decide)).2 rfl

/-- C6: a failed encoding writes nothing to the log file.  If snprintf
fails, or `encrypt_record` returns false at any of its internal steps
(IV generation, encrypt submission, encrypt completion, or the
ciphertext-length check all make its result none), the backing file's
bytes are unchanged by the append attempt. -/
theorem append_encoding_failure_writes_nothing (o : Oracle) (fs : FsEnv)
    (snErr : Bool) (us : Int) (st : LogState)
    (h : snErr = true ∨
      (encrypt_record o (msgBytes ((st.seq + 1) % 2 ^ 32) (us.tdiv 1000))
        (msgBytes ((st.seq + 1) % 2 ^ 32) (us.tdiv 1000)).length
        (AES_IV_BYTES + PLAINTEXT_MAX)).1 = none) :
    (append_encrypted_record o fs snErr us st).1.file = st.file := by
  rcases h with h | h
  · subst h
    simp [append_encrypted_record]
  · rcases he : encrypt_record o (msgBytes ((st.seq + 1) % 2 ^ 32) (us.tdiv 1000))
        (msgBytes ((st.seq + 1) % 2 ^ 32) (us.tdiv 1000)).length
        (AES_IV_BYTES + PLAINTEXT_MAX) with ⟨res, t⟩
    rw [he] at h
    simp only at h
    subst h
    cases hsn : snErr
    · simp only [append_encrypted_record, he]
      simp
    · simp [append_encrypted_record]

/-- Witness for C6: a failing RNG leaves a one-byte file unchanged. -/
theorem append_encoding_failure_writes_nothing_witness :
    (append_encrypted_record oracleRngFails fsOk false 0
      { seq := 0, file := [9] }).1.file = [9] :=
  append_encoding_failure_writes_nothing oracleRngFails fsOk false 0
    { seq := 0, file := [9] } (Or.inr (by decide))

/-- C9: every invocation of `append_encrypted_record` increments the
uint32 sequence counter by exactly one (modulo 2^32) before anything
can fail, regardless of whether message construction, encryption, or
the file open fails — so the sequence numbers embedded in successfully
stored records can have gaps. -/
theorem append_always_increments_seq (o : Oracle) (fs : FsEnv) (snErr : Bool)
    (us : Int) (st : LogState) :
    (append_encrypted_record o fs snErr us st).1.seq = (st.seq + 1) % 2 ^ 32 := by
  cases hsn : snErr
  · rcases he : encrypt_record o (msgBytes ((st.seq + 1) % 2 ^ 32) (us.tdiv 1000))
        (msgBytes ((st.seq + 1) % 2 ^ 32) (us.tdiv 1000)).length
        (AES_IV_BYTES + PLAINTEXT_MAX) with ⟨res, t⟩
    cases res with
    | none =>
      simp only [append_encrypted_record, he]
      simp
    | some r =>
      by_cases ho : fs.openOk = false
      · simp only [append_encrypted_record, he]
        simp [ho]
      · simp only [append_encrypted_record, he]
        simp [ho]
  · simp [append_encrypted_record]

/-- C8: at the only call site of `encrypt_record`, the message
snprintf builds is at most 63 bytes: 21 literal bytes, at most 10
digits for the uint32 sequence number, and at most 17 bytes (sign plus
16 digits) for any int64 microsecond count divided by 1000 — 48 bytes
at most.  It therefore fits the 64-byte message buffer untruncated, and
the copy of `written` bytes into the 64-byte staging buffer inside
`encrypt_record` stays in bounds: the staging buffer is exactly
PLAINTEXT_MAX bytes. -/
theorem call_site_message_in_bounds (seq : Nat) (us : Int)
    (hseq : seq < 2 ^ 32) (hlo : -(2 ^ 63) ≤ us) (hhi : us < 2 ^ 63) :
    (msgBytes seq (us.tdiv 1000)).length ≤ 63
      ∧ (pt_buf_model (msgBytes seq (us.tdiv 1000))
          (msgBytes seq (us.tdiv 1000)).length).length = PLAINTEXT_MAX := by
  have hseqlen : (decChars seq).length ≤ 10 := by
    rw [decChars, decCharsAux_length]
    exact decLenAux_le seq seq 10 (by norm_num) (lt_of_lt_of_le hseq (by norm_num))
  have habs : us.natAbs ≤ 2 ^ 63 := by omega
  have hdiv : (us.tdiv 1000).natAbs < 10 ^ 16 := by
    rw [Int.natAbs_tdiv]
    calc us.natAbs / (1000 : Int).natAbs ≤ 2 ^ 63 / 1000 :=
          Nat.div_le_div_right habs
      _ < 10 ^ 16 := by norm_num
  have hmsdigits : (decChars (us.tdiv 1000).natAbs).length ≤ 16 := by
    rw [decChars, decCharsAux_length]
    exact decLenAux_le _ _ 16 (by norm_num) hdiv
  have hmslen : (intChars (us.tdiv 1000)).length ≤ 17 := by
    unfold intChars
    by_cases hneg : us.tdiv 1000 < 0
    · simp only [hneg, if_true, List.length_cons]
      omega
    · simp only [hneg, if_false]
      omega
  have hlen63 : (msgBytes seq (us.tdiv 1000)).length ≤ 63 := by
    simp only [msgBytes, List.length_append, List.length_cons, List.length_nil]
    omega
  refine ⟨hlen63, ?_⟩
  simp only [pt_buf_model, List.take_length, List.length_append,
    List.length_replicate, PLAINTEXT_MAX]
  omega

/-- Witness for C8 at sequence number 1 and uptime 0. -/
theorem call_site_message_in_bounds_witness :
    (msgBytes 1 ((0 : Int).tdiv 1000)).length ≤ 63
      ∧ (pt_buf_model (msgBytes 1 ((0 : Int).tdiv 1000))
          (msgBytes 1 ((0 : Int).tdiv 1000)).length).length = PLAINTEXT_MAX :=
  call_site_message_in_bounds 1 0 (by decide) (by decide) (by decide)
